import Mathlib

/-!
Shallow embedding of the dockerizalo app-lifecycle core: the compose
configuration generator (src/helpers/docker.ts) and the app controllers
(src/controllers/apps.ts).  External collaborators (the docker service,
the prisma store, the filesystem service, the realtime hub and the
promise-retry dependency) are represented as an explicit environment of
functions; the controllers are embedded as pure functions from that
environment to a result together with the list of collaborator calls
they issue.
-/

namespace Dockerizalo

/-- Runtime status of a container as reported by the docker service
(spec section 3: `running | restarting | exited | absent`). -/
inductive ContainerStatus
  | running
  | restarting
  | exited
  | absent
deriving DecidableEq, Repr

/-- An app record: identity and unique name (the other persisted columns do
not influence the embedded control flow). -/
structure App where
  id : String
  name : String
deriving DecidableEq, Repr

/-- A build record: its id and the id of the app that owns it. -/
structure Build where
  id : String
  appId : String
deriving DecidableEq, Repr

/-- A port mapping fragment: external/internal pair (rendered verbatim by
the generator, so modelled as strings). -/
structure PortMapping where
  external : String
  internal : String
deriving DecidableEq, Repr

/-- A bind mount fragment: host/internal path pair. -/
structure BindMount where
  host : String
  internal : String
deriving DecidableEq, Repr

/-- An environment variable fragment: key/value pair. -/
structure EnvironmentVariable where
  key : String
  value : String
deriving DecidableEq, Repr

/-- A network fragment: name and external flag. -/
structure Network where
  name : String
  external : Bool
deriving DecidableEq, Repr

/-- A label fragment: key/value pair. -/
structure Label where
  key : String
  value : String
deriving DecidableEq, Repr

/-! ### JavaScript object folding

`variables.reduce((acc, v) => ({...acc, [v.key]: v.value}), {})` builds a
JavaScript object by repeated insertion; spreading keeps the original
position of an already-present key and overwrites its value, a fresh key
is appended.  We model the object as an association list with exactly
that insertion operation. -/

/-- Lookup in a JavaScript-object association list: first match wins
(a JavaScript object holds each key at most once, so the first match is
the only one). -/
def jsLookup : List (String × String) → String → Option String
  | [], _ => none
  | p :: rest, k => if p.1 = k then some p.2 else jsLookup rest k

/-- One step of `{...acc, [k]: v}`: overwrite the value of `k` in place if
present, append `(k, v)` otherwise. -/
def jsInsert (acc : List (String × String)) (k v : String) : List (String × String) :=
  if acc.any (fun p => p.1 == k) then
    acc.map (fun p => if p.1 = k then (k, v) else p)
  else
    acc ++ [(k, v)]

/-- The `reduce` fold of a key/value list into a JavaScript object. -/
def jsObjectOfList (kvs : List (String × String)) : List (String × String) :=
  kvs.foldl (fun acc kv => jsInsert acc kv.1 kv.2) []

/-- The value of the last occurrence of a key in a key/value list, if any. -/
def lastVal : List (String × String) → String → Option String
  | [], _ => none
  | p :: rest, k =>
    match lastVal rest k with
    | some v => some v
    | none => if p.1 = k then some p.2 else none

/-- One property assignment of `Object.fromEntries` on the networks
entries (values are name/external pairs): overwrite the value of an
already-present key in place, append a fresh key. -/
def netInsert (acc : List (String × String × Bool)) (k : String)
    (v : String × Bool) : List (String × String × Bool) :=
  if acc.any (fun p => p.1 == k) then
    acc.map (fun p => if p.1 = k then (k, v) else p)
  else
    acc ++ [(k, v)]

/-- `Object.fromEntries` over the networks entry list: later duplicate
keys overwrite earlier ones, exactly as repeated property assignment. -/
def netObjectOfList (kvs : List (String × String × Bool)) :
    List (String × String × Bool) :=
  kvs.foldl (fun acc kv => netInsert acc kv.1 kv.2) []

/-! ### The compose configuration generator (src/helpers/docker.ts) -/

/-- The single service entry of the generated compose document
(`services.app` in the source).  Optional fields model the conditional
object spreads: `none` means the key is omitted from the document. -/
structure ComposeService where
  image : String
  container_name : String
  restart : String
  ports : Option (List String)
  environment : Option (List (String × String))
  labels : Option (List (String × String))
  volumes : Option (List String)
  networks : Option (List String)
deriving DecidableEq, Repr

/-- The generated compose document: the service entry plus the optional
top-level `networks` mapping (name to (name, external flag)). -/
structure ComposeDocument where
  service : ComposeService
  networks : Option (List (String × String × Bool))
deriving DecidableEq, Repr

/-- Embedding of `createComposeConfiguration` (src/helpers/docker.ts).
The source serializes the object with the dump function of js-yaml; we model the
structured object itself, with each conditional spread rendered as an
optional field. -/
def createComposeConfiguration (build : Build) (ports : List PortMapping)
    (volumes : List BindMount) (vars : List EnvironmentVariable)
    (networks : List Network) (labels : List Label) : ComposeDocument :=
  { service :=
      { image := "dockerizalo-" ++ build.id
        container_name := "dockerizalo-" ++ build.appId
        restart := "unless-stopped"
        ports :=
          if ports.isEmpty then none
          else some (ports.map (fun port => port.external ++ ":" ++ port.internal))
        environment :=
          if vars.isEmpty then none
          else some (jsObjectOfList (vars.map (fun v => (v.key, v.value))))
        labels :=
          if labels.isEmpty then none
          else some (jsObjectOfList (labels.map (fun l => (l.key, l.value))))
        volumes :=
          if volumes.isEmpty then none
          else some (volumes.map (fun volume => volume.host ++ ":" ++ volume.internal))
        networks :=
          if networks.isEmpty then none
          else some (networks.map (fun network => network.name)) }
    networks :=
      if networks.isEmpty then none
      else some (netObjectOfList (networks.map
        (fun network => (network.name, network.name, network.external)))) }

/-! ### First-occurrence substring deletion

`image.replace("dockerizalo-", "")` in startApp uses the JavaScript
string `replace` with a string pattern, which replaces only the first
occurrence; a string without the pattern is returned verbatim. -/

/-- Delete the first occurrence of `pat` from a character list; the list is
returned unchanged when `pat` does not occur. -/
def deleteFirst (pat : List Char) : List Char → List Char
  | [] => []
  | c :: cs =>
    if pat.isPrefixOf (c :: cs) then (c :: cs).drop pat.length
    else c :: deleteFirst pat cs

/-- Whether `pat` occurs as a contiguous sublist. -/
def hasOcc (pat : List Char) : List Char → Bool
  | [] => pat.isEmpty
  | c :: cs => pat.isPrefixOf (c :: cs) || hasOcc pat cs

/-- The build id startApp derives from a compose image tag:
`image.replace("dockerizalo-", "")`. -/
def buildIdOfImage (image : String) : String :=
  String.mk (deleteFirst "dockerizalo-".data image.data)

/-! ### The controller environment

The controllers call out to the docker service, the filesystem service,
the prisma store and the realtime hub; none of those modules is part of
the embedded core, so each call is a field of an explicit environment
(containerStatus, allContainers, imageAvailable and the stack operations
follow the Runtime Adapter contract of spec section 4.2). -/

/-- The error a compose stack operation can raise: the source
distinguishes errors carrying an `err` field (reported as a 500) from
any other thrown value (rethrown). -/
inductive StackError
  | withErr (err : String)
  | other (msg : String)
deriving DecidableEq, Repr

/-- A collaborator call issued by a controller, recorded in order. -/
inductive Effect
  | statusCheck (name : String)
  | createBuild
  | saveConfig (directory : String) (doc : ComposeDocument)
  | startStack (directory : String)
  | stopStack (directory : String)
  | sendEvent (appId : String)
  | subscribe (appId : String)
  | streamLogs (name : String)
deriving DecidableEq, Repr

/-- The abstract world the controllers run against: the store contents,
the per-directory filesystem and docker answers, and the outcome each
stack operation would have. -/
structure Env where
  apps : List App
  builds : List Build
  containerStatus : String → ContainerStatus
  allContainers : List (String × ContainerStatus)
  appDirectory : String → Option String
  orCreateDirectory : String → String
  composeConfig : String → Option String
  composeImage : String → Option String
  imageAvailable : String → Bool
  startStackResult : String → Except StackError Unit
  stopStackResult : String → Except StackError Unit
  ports : String → List PortMapping
  volumes : String → List BindMount
  vars : String → List EnvironmentVariable
  networks : String → List Network
  labels : String → List Label

/-- The container name used by every single-app status query:
`dockerizalo-` followed by the app id. -/
def singleStatusName (appId : String) : String :=
  "dockerizalo-" ++ appId

/-- The key the bulk listing looks up in the all-containers snapshot:
`/dockerizalo-` followed by the app id. -/
def bulkStatusKey (appId : String) : String :=
  "/dockerizalo-" ++ appId

/-- Embedding of `listApps`: map every stored app to itself paired with
the status found in the all-containers snapshot under the bulk key,
defaulting to `exited` when the key is absent. -/
def listApps (env : Env) : List (App × ContainerStatus) :=
  env.apps.map (fun app =>
    (app, (((env.allContainers.find? (fun p => p.1 == bulkStatusKey app.id)).map
      Prod.snd).getD ContainerStatus.exited)))

/-- Result of the status-stream controller. -/
inductive ListenResult
  | notFound
  | subscribed (status : ContainerStatus)
deriving DecidableEq, Repr

/-- Embedding of `listenApp` (status-stream): 404 when the app does not
exist, otherwise subscribe and write one snapshot whose status is the
single-container query at `dockerizalo-` plus the app id. -/
def listenApp (env : Env) (appId : String) : ListenResult × List Effect :=
  match env.apps.find? (fun a => a.id == appId) with
  | none => (.notFound, [])
  | some app =>
    (.subscribed (env.containerStatus (singleStatusName app.id)),
      [.subscribe appId, .statusCheck (singleStatusName app.id)])

/-- Result of the start controller. -/
inductive StartResult
  | notFound
  | alreadyRunning
  | delegated
  | runtimeError (err : String)
  | uncaught (msg : String)
  | success
deriving DecidableEq, Repr

/-- Embedding of `startApp` (src/controllers/apps.ts lines 144-245): the
404 check, the already-running conflict, the six sequential
configuration-reuse checks each routing to `createBuild`, and on full
reuse the fragment load, regeneration, save and `startComposeStack`
with its `err`-field error handling. -/
def startApp (env : Env) (appId : String) : StartResult × List Effect :=
  match env.apps.find? (fun a => a.id == appId) with
  | none => (.notFound, [])
  | some app =>
    let name := singleStatusName appId
    let status := env.containerStatus name
    if status = ContainerStatus.running then
      (.alreadyRunning, [.statusCheck name])
    else
      match env.appDirectory app.id with
      | none => (.delegated, [.statusCheck name, .createBuild])
      | some directory =>
        match env.composeConfig directory with
        | none => (.delegated, [.statusCheck name, .createBuild])
        | some compose =>
          match env.composeImage compose with
          | none => (.delegated, [.statusCheck name, .createBuild])
          | some image =>
            if image = "" then (.delegated, [.statusCheck name, .createBuild])
            else
              let buildId := buildIdOfImage image
              if buildId = "" then (.delegated, [.statusCheck name, .createBuild])
              else
                match env.builds.find? (fun b => b.id == buildId) with
                | none => (.delegated, [.statusCheck name, .createBuild])
                | some build =>
                  if env.imageAvailable image then
                    let doc := createComposeConfiguration build (env.ports app.id)
                      (env.volumes app.id) (env.vars app.id) (env.networks app.id)
                      (env.labels app.id)
                    match env.startStackResult directory with
                    | Except.ok _ =>
                      (.success, [.statusCheck name, .saveConfig directory doc,
                        .startStack directory, .sendEvent app.id])
                    | Except.error (StackError.withErr e) =>
                      (.runtimeError e, [.statusCheck name, .saveConfig directory doc,
                        .startStack directory])
                    | Except.error (StackError.other m) =>
                      (.uncaught m, [.statusCheck name, .saveConfig directory doc,
                        .startStack directory])
                  else (.delegated, [.statusCheck name, .createBuild])

/-- Result of the stop controller. -/
inductive StopResult
  | notFound
  | notRunning
  | uncaughtStop (e : StackError)
  | success
deriving DecidableEq, Repr

/-- Embedding of `stopApp`: the 404 check, the conflict unless the status
is running or restarting, then `getOrCreateAppDirectory` followed by
`stopComposeStack` (whose failure propagates uncaught: the source has no
try around it), event publish and success. -/
def stopApp (env : Env) (appId : String) : StopResult × List Effect :=
  match env.apps.find? (fun a => a.id == appId) with
  | none => (.notFound, [])
  | some app =>
    let name := singleStatusName appId
    let status := env.containerStatus name
    if status ≠ ContainerStatus.running ∧ status ≠ ContainerStatus.restarting then
      (.notRunning, [.statusCheck name])
    else
      let directory := env.orCreateDirectory app.id
      match env.stopStackResult directory with
      | Except.ok _ =>
        (.success, [.statusCheck name, .stopStack directory, .sendEvent app.id])
      | Except.error e =>
        (.uncaughtStop e, [.statusCheck name, .stopStack directory])

/-- Result of the log-stream controller. -/
inductive LogsResult
  | notFound
  | notRunning
  | streaming
deriving DecidableEq, Repr

/-- Embedding of `listenAppLogs` up to the hand-off to the retry loop:
the 404 check, the conflict unless the status is running or restarting,
then the log stream is started on the single-query container name. -/
def listenAppLogs (env : Env) (appId : String) : LogsResult × List Effect :=
  match env.apps.find? (fun a => a.id == appId) with
  | none => (.notFound, [])
  | some _ =>
    let name := singleStatusName appId
    let status := env.containerStatus name
    if status ≠ ContainerStatus.running ∧ status ≠ ContainerStatus.restarting then
      (.notRunning, [.statusCheck name])
    else
      (.streaming, [.statusCheck name, .streamLogs name])

/-! ### The log stream supervisor -/

/-- Modelled from the spec: the retry combinator of the promise-retry
dependency, which is not part of this repository.  `listenAppLogs` wraps
`getContainerLogs` in `promiseRetry(..., \x7b forever: true, maxTimeout:
1000 \x7d)` and its catch handler calls `retry(error)` only while the
abort signal has not fired, otherwise resolves (swallowing the error).
`attempt i` is the outcome of the i-th adapter call, `aborted i` whether
the cancellation signal has fired when that call fails, and the fuel
argument bounds the unrolling of the otherwise unbounded loop
(`pending` means the fuel ran out before the loop settled). -/
inductive RetryOutcome
  | delivered (retries : Nat)
  | swallowed (failures : Nat)
  | pending
deriving DecidableEq, Repr

/-- Modelled from the spec: one unrolling of the forever retry loop,
starting at attempt index `i`. -/
def superviseLogs (attempt : Nat → Except String Unit) (aborted : Nat → Bool) :
    Nat → Nat → RetryOutcome
  | 0, _ => .pending
  | fuel + 1, i =>
    match attempt i with
    | Except.ok _ => .delivered i
    | Except.error _ =>
      if aborted i then .swallowed i
      else superviseLogs attempt aborted fuel (i + 1)

/-- Modelled from the spec: the backoff delay before the k-th retry under
the promise-retry defaults (minTimeout 1000, factor 2) and the configured
maxTimeout 1000. -/
def logRetryTimeout (k : Nat) : Nat :=
  min (1000 * 2 ^ k) 1000

/-- The value of the last occurrence of a key in a key/value list, phrased
through reversal: the first match of the reversed list. -/
def lastOccValue (kvs : List (String × String)) (k : String) : Option String :=
  (kvs.reverse.find? (fun p => p.1 == k)).map Prod.snd

/-- Whether a string contains the marker `dockerizalo-`. -/
def hasDockerizaloMarker (s : String) : Bool :=
  hasOcc "dockerizalo-".data s.data

/-! ### Concrete environments used to instantiate the theorems -/

/-- A world with one app whose container is exited and whose on-disk
configuration is fully reusable. -/
def baseEnv : Env where
  apps := [⟨"a1", "web"⟩]
  builds := [⟨"b1", "a1"⟩]
  containerStatus := fun _ => ContainerStatus.exited
  allContainers := []
  appDirectory := fun _ => some "/apps/a1"
  orCreateDirectory := fun _ => "/apps/a1"
  composeConfig := fun _ => some "services"
  composeImage := fun _ => some "dockerizalo-b1"
  imageAvailable := fun _ => true
  startStackResult := fun _ => Except.ok ()
  stopStackResult := fun _ => Except.ok ()
  ports := fun _ => []
  volumes := fun _ => []
  vars := fun _ => []
  networks := fun _ => []
  labels := fun _ => []

/-- The base world with the container running. -/
def runningEnv : Env :=
  { baseEnv with containerStatus := fun _ => ContainerStatus.running }

/-- The base world with the container restarting. -/
def restartingEnv : Env :=
  { baseEnv with containerStatus := fun _ => ContainerStatus.restarting }

/-- The base world with no app directory on disk. -/
def noDirEnv : Env :=
  { baseEnv with appDirectory := fun _ => none }

/-- The base world where starting the stack raises a runtime error that
carries an err field. -/
def errEnv : Env :=
  { baseEnv with
    startStackResult := fun _ => Except.error (StackError.withErr "boom") }

/-- An adapter behaviour that fails on every call except the second. -/
def attemptMix (i : Nat) : Except String Unit :=
  if i = 1 then Except.ok () else Except.error "unavailable"

/-- A cancellation signal that fires from the third call on. -/
def abortedLate (i : Nat) : Bool :=
  decide (2 <= i)

/-! ### Lemmas about JavaScript object folding -/

theorem jsLookup_append (l₁ l₂ : List (String × String)) (k : String) :
    jsLookup (l₁ ++ l₂) k =
      match jsLookup l₁ k with
      | some v => some v
      | none => jsLookup l₂ k := by
  induction l₁ with
  | nil => simp [jsLookup]
  | cons p rest ih =>
    by_cases h : p.1 = k <;> simp [jsLookup, h, ih]

theorem jsLookup_none_of_not_any (acc : List (String × String)) (k : String)
    (h : acc.any (fun p => p.1 == k) = false) : jsLookup acc k = none := by
  induction acc with
  | nil => simp [jsLookup]
  | cons p rest ih =>
    simp only [List.any_cons, Bool.or_eq_false_iff] at h
    have h1 : p.1 ≠ k := by simpa using h.1
    simp [jsLookup, h1, ih h.2]

theorem jsLookup_map_overwrite (acc : List (String × String)) (k v : String)
    (h : acc.any (fun p => p.1 == k) = true) :
    jsLookup (acc.map (fun p => if p.1 = k then (k, v) else p)) k = some v := by
  induction acc with
  | nil => simp at h
  | cons p rest ih =>
    by_cases hp : p.1 = k
    · simp [jsLookup, hp]
    · simp only [List.any_cons, Bool.or_eq_true_iff] at h
      have h2 : rest.any (fun p => p.1 == k) = true := by
        rcases h with h | h
        · exact absurd (by simpa using h) hp
        · exact h
      simp [jsLookup, hp, ih h2]

theorem jsLookup_map_other (acc : List (String × String)) (k k' v : String)
    (h : k ≠ k') :
    jsLookup (acc.map (fun p => if p.1 = k' then (k', v) else p)) k =
      jsLookup acc k := by
  induction acc with
  | nil => simp [jsLookup]
  | cons p rest ih =>
    simp only [List.map_cons, jsLookup]
    by_cases hp : p.1 = k'
    · rw [if_pos hp]
      have h1 : ¬ ((k', v).1 = k) := fun hc => h (by simpa using hc.symm)
      have h2 : ¬ (p.1 = k) := by rw [hp]; exact fun hc => h hc.symm
      rw [if_neg h1, if_neg h2, ih]
    · rw [if_neg hp]
      by_cases hk : p.1 = k
      · rw [if_pos hk, if_pos hk]
      · rw [if_neg hk, if_neg hk, ih]

theorem jsLookup_jsInsert_self (acc : List (String × String)) (k v : String) :
    jsLookup (jsInsert acc k v) k = some v := by
  unfold jsInsert
  cases hb : acc.any (fun p => p.1 == k) with
  | true =>
    rw [if_pos rfl]
    exact jsLookup_map_overwrite acc k v hb
  | false =>
    rw [if_neg Bool.false_ne_true, jsLookup_append, jsLookup_none_of_not_any acc k hb]
    simp [jsLookup]

theorem jsLookup_jsInsert_other (acc : List (String × String)) (k k' v : String)
    (h : k ≠ k') : jsLookup (jsInsert acc k' v) k = jsLookup acc k := by
  unfold jsInsert
  cases hb : acc.any (fun p => p.1 == k') with
  | true =>
    rw [if_pos rfl]
    exact jsLookup_map_other acc k k' v h
  | false =>
    rw [if_neg Bool.false_ne_true, jsLookup_append]
    cases hl : jsLookup acc k with
    | some w => simp
    | none =>
      have hne : ¬(k' = k) := fun hc => h hc.symm
      simp [jsLookup, hne]

theorem jsLookup_foldl (l : List (String × String)) (acc : List (String × String))
    (k : String) :
    jsLookup (l.foldl (fun a kv => jsInsert a kv.1 kv.2) acc) k =
      match lastVal l k with
      | some v => some v
      | none => jsLookup acc k := by
  induction l generalizing acc with
  | nil => simp [lastVal]
  | cons kv rest ih =>
    simp only [List.foldl_cons]
    rw [ih]
    cases hrest : lastVal rest k with
    | some v => simp [lastVal, hrest]
    | none =>
      by_cases hk : kv.1 = k
      · subst hk
        simp [lastVal, hrest, jsLookup_jsInsert_self]
      · simp [lastVal, hrest, hk, jsLookup_jsInsert_other acc k kv.1 kv.2 (fun hc => hk hc.symm)]

theorem jsLookup_jsObjectOfList (l : List (String × String)) (k : String) :
    jsLookup (jsObjectOfList l) k = lastVal l k := by
  rw [jsObjectOfList, jsLookup_foldl]
  cases h : lastVal l k <;> simp [jsLookup]

theorem lastVal_eq_lastOccValue (l : List (String × String)) (k : String) :
    lastVal l k = lastOccValue l k := by
  induction l with
  | nil => simp [lastVal, lastOccValue]
  | cons p rest ih =>
    rw [lastVal, ih]
    unfold lastOccValue
    rw [List.reverse_cons, List.find?_append]
    cases h : (rest.reverse.find? (fun q => q.1 == k)) with
    | some w => simp [h]
    | none =>
      by_cases hk : p.1 = k
      · have hb : (p.1 == k) = true := by simp [hk]
        simp [h, List.find?, hb, hk]
      · have hb : (p.1 == k) = false := by simp [hk]
        simp [h, List.find?, hb, hk]

/-- Lookup in the folded object is exactly the last occurrence value. -/
theorem jsObject_last_write_wins (l : List (String × String)) (k : String) :
    jsLookup (jsObjectOfList l) k = lastOccValue l k := by
  rw [jsLookup_jsObjectOfList, lastVal_eq_lastOccValue]

/-! ### Claim C2: sections present iff the source list is non-empty -/

/-- C2: for every build record and every combination of input lists, the
generated compose document contains the ports section (entries
`external:internal`), the environment mapping, the labels mapping, the
volumes section (entries `host:internal`), the service networks list and
the top-level networks mapping (name to (name, external flag)) exactly
when the corresponding input list is non-empty, and omits every section
whose input list is empty. -/
theorem c2_sections_iff_nonempty (build : Build) (ports : List PortMapping)
    (volumes : List BindMount) (vars : List EnvironmentVariable)
    (networks : List Network) (labels : List Label) :
    ((createComposeConfiguration build ports volumes vars networks labels).service.ports
        = if ports = [] then none
          else some (ports.map (fun port => port.external ++ ":" ++ port.internal))) ∧
    ((createComposeConfiguration build ports volumes vars networks labels).service.environment
        = if vars = [] then none
          else some (jsObjectOfList (vars.map (fun v => (v.key, v.value))))) ∧
    ((createComposeConfiguration build ports volumes vars networks labels).service.labels
        = if labels = [] then none
          else some (jsObjectOfList (labels.map (fun l => (l.key, l.value))))) ∧
    ((createComposeConfiguration build ports volumes vars networks labels).service.volumes
        = if volumes = [] then none
          else some (volumes.map (fun volume => volume.host ++ ":" ++ volume.internal))) ∧
    ((createComposeConfiguration build ports volumes vars networks labels).service.networks
        = if networks = [] then none
          else some (networks.map (fun network => network.name))) ∧
    ((createComposeConfiguration build ports volumes vars networks labels).networks
        = if networks = [] then none
          else some (netObjectOfList (networks.map
            (fun network => (network.name, network.name, network.external))))) := by
  refine ⟨?_, ?_, ?_, ?_, ?_, ?_⟩
  · cases ports <;> simp [createComposeConfiguration]
  · cases vars <;> simp [createComposeConfiguration]
  · cases labels <;> simp [createComposeConfiguration]
  · cases volumes <;> simp [createComposeConfiguration]
  · cases networks <;> simp [createComposeConfiguration]
  · cases networks <;> simp [createComposeConfiguration]

/-! ### Claim C3: last-write-wins folding -/

/-- C3: in the generated document, looking any key up in the environment
(resp. labels) mapping yields the value of the last occurrence of that key in
the variables (resp. labels) list, and any permutation of the list that
preserves the final occurrence of each key folds to a pointwise-equal
mapping. -/
theorem c3_last_write_wins (build : Build) (ports : List PortMapping)
    (volumes : List BindMount) (vars vars2 : List EnvironmentVariable)
    (networks : List Network) (labels labels2 : List Label)
    (hv : vars ≠ []) (hl : labels ≠ [])
    (hvp : vars.Perm vars2) (hlp : labels.Perm labels2)
    (hvlast : ∀ k, lastOccValue (vars.map (fun v => (v.key, v.value))) k
      = lastOccValue (vars2.map (fun v => (v.key, v.value))) k)
    (hllast : ∀ k, lastOccValue (labels.map (fun l => (l.key, l.value))) k
      = lastOccValue (labels2.map (fun l => (l.key, l.value))) k) :
    ((createComposeConfiguration build ports volumes vars networks labels).service.environment
        = some (jsObjectOfList (vars.map (fun v => (v.key, v.value))))) ∧
    ((createComposeConfiguration build ports volumes vars networks labels).service.labels
        = some (jsObjectOfList (labels.map (fun l => (l.key, l.value))))) ∧
    (∀ k, jsLookup (jsObjectOfList (vars.map (fun v => (v.key, v.value)))) k
      = lastOccValue (vars.map (fun v => (v.key, v.value))) k) ∧
    (∀ k, jsLookup (jsObjectOfList (labels.map (fun l => (l.key, l.value)))) k
      = lastOccValue (labels.map (fun l => (l.key, l.value))) k) ∧
    (∀ k, jsLookup (jsObjectOfList (vars.map (fun v => (v.key, v.value)))) k
      = jsLookup (jsObjectOfList (vars2.map (fun v => (v.key, v.value)))) k) ∧
    (∀ k, jsLookup (jsObjectOfList (labels.map (fun l => (l.key, l.value)))) k
      = jsLookup (jsObjectOfList (labels2.map (fun l => (l.key, l.value)))) k) := by
  refine ⟨?_, ?_, ?_, ?_, ?_, ?_⟩
  · simp [createComposeConfiguration, hv]
  · simp [createComposeConfiguration, hl]
  · exact fun k => jsObject_last_write_wins _ k
  · exact fun k => jsObject_last_write_wins _ k
  · intro k
    rw [jsObject_last_write_wins, hvlast k, jsObject_last_write_wins]
  · intro k
    rw [jsObject_last_write_wins, hllast k, jsObject_last_write_wins]

/-- Witness for C3 at a concrete input with duplicate keys. -/
theorem c3_witness :
    (createComposeConfiguration ⟨"b1", "a1"⟩ [] []
      [⟨"K", "one"⟩, ⟨"K", "two"⟩] [] [⟨"L", "x"⟩, ⟨"L", "y"⟩]).service.environment
      = some (jsObjectOfList [("K", "one"), ("K", "two")]) ∧
    jsLookup (jsObjectOfList [("K", "one"), ("K", "two")]) "K"
      = lastOccValue [("K", "one"), ("K", "two")] "K" ∧
    jsLookup (jsObjectOfList [("L", "x"), ("L", "y")]) "L"
      = lastOccValue [("L", "x"), ("L", "y")] "L" := by
  have h := c3_last_write_wins ⟨"b1", "a1"⟩ [] [] [⟨"K", "one"⟩, ⟨"K", "two"⟩]
    [⟨"K", "one"⟩, ⟨"K", "two"⟩] [] [⟨"L", "x"⟩, ⟨"L", "y"⟩] [⟨"L", "x"⟩, ⟨"L", "y"⟩]
    (List.cons_ne_nil _ _) (List.cons_ne_nil _ _) (List.Perm.refl _) (List.Perm.refl _)
    (fun _ => rfl) (fun _ => rfl)
  exact ⟨h.1, h.2.2.1 "K", h.2.2.2.1 "L"⟩

/-! ### Lemmas about first-occurrence deletion -/

theorem deleteFirst_of_not_hasOcc (pat l : List Char) (h : hasOcc pat l = false) :
    deleteFirst pat l = l := by
  induction l with
  | nil => simp [deleteFirst]
  | cons c cs ih =>
    simp only [hasOcc, Bool.or_eq_false_iff] at h
    simp [deleteFirst, h.1, ih h.2]

theorem deleteFirst_append (pat rest : List Char) (hne : pat ≠ []) :
    deleteFirst pat (pat ++ rest) = rest := by
  cases hp : pat with
  | nil => exact absurd hp hne
  | cons c cs =>
    rw [← hp]
    have hcons : pat ++ rest = c :: (cs ++ rest) := by rw [hp]; simp
    rw [hcons, deleteFirst]
    have hpre : pat.isPrefixOf (c :: (cs ++ rest)) = true := by
      rw [← hcons]
      exact List.isPrefixOf_iff_prefix.mpr ⟨rest, rfl⟩
    rw [if_pos hpre, ← hcons, List.drop_append_of_le_length (by simp)]
    simp

theorem buildIdOfImage_of_no_marker (image : String)
    (h : hasDockerizaloMarker image = false) : buildIdOfImage image = image := by
  unfold buildIdOfImage
  rw [deleteFirst_of_not_hasOcc _ _ h]

theorem buildIdOfImage_marker_append (s : String) :
    buildIdOfImage ("dockerizalo-" ++ s) = s := by
  unfold buildIdOfImage
  rw [String.data_append, deleteFirst_append _ _ (by decide)]

/-! ### Equation lemmas for the start controller -/

theorem startApp_eq_of_notFound (env : Env) (appId : String)
    (hfind : env.apps.find? (fun a => a.id == appId) = none) :
    startApp env appId = (.notFound, []) := by
  simp [startApp, hfind]

theorem startApp_eq_of_running (env : Env) (appId : String) (app : App)
    (hfind : env.apps.find? (fun a => a.id == appId) = some app)
    (hrun : env.containerStatus (singleStatusName appId) = ContainerStatus.running) :
    startApp env appId = (.alreadyRunning, [.statusCheck (singleStatusName appId)]) := by
  simp [startApp, hfind, hrun]

theorem startApp_eq_of_noDir (env : Env) (appId : String) (app : App)
    (hfind : env.apps.find? (fun a => a.id == appId) = some app)
    (hnr : env.containerStatus (singleStatusName appId) ≠ ContainerStatus.running)
    (hdir : env.appDirectory app.id = none) :
    startApp env appId =
      (.delegated, [.statusCheck (singleStatusName appId), .createBuild]) := by
  simp [startApp, hfind, hnr, hdir]

theorem startApp_eq_of_noConfig (env : Env) (appId : String) (app : App) (dir : String)
    (hfind : env.apps.find? (fun a => a.id == appId) = some app)
    (hnr : env.containerStatus (singleStatusName appId) ≠ ContainerStatus.running)
    (hdir : env.appDirectory app.id = some dir)
    (hcfg : env.composeConfig dir = none) :
    startApp env appId =
      (.delegated, [.statusCheck (singleStatusName appId), .createBuild]) := by
  simp [startApp, hfind, hnr, hdir, hcfg]

theorem startApp_eq_of_noImage (env : Env) (appId : String) (app : App)
    (dir compose : String)
    (hfind : env.apps.find? (fun a => a.id == appId) = some app)
    (hnr : env.containerStatus (singleStatusName appId) ≠ ContainerStatus.running)
    (hdir : env.appDirectory app.id = some dir)
    (hcfg : env.composeConfig dir = some compose)
    (himg : env.composeImage compose = none) :
    startApp env appId =
      (.delegated, [.statusCheck (singleStatusName appId), .createBuild]) := by
  simp [startApp, hfind, hnr, hdir, hcfg, himg]

theorem startApp_eq_of_emptyImage (env : Env) (appId : String) (app : App)
    (dir compose : String)
    (hfind : env.apps.find? (fun a => a.id == appId) = some app)
    (hnr : env.containerStatus (singleStatusName appId) ≠ ContainerStatus.running)
    (hdir : env.appDirectory app.id = some dir)
    (hcfg : env.composeConfig dir = some compose)
    (himg : env.composeImage compose = some "") :
    startApp env appId =
      (.delegated, [.statusCheck (singleStatusName appId), .createBuild]) := by
  simp [startApp, hfind, hnr, hdir, hcfg, himg]

theorem startApp_eq_of_emptyBuildId (env : Env) (appId : String) (app : App)
    (dir compose image : String)
    (hfind : env.apps.find? (fun a => a.id == appId) = some app)
    (hnr : env.containerStatus (singleStatusName appId) ≠ ContainerStatus.running)
    (hdir : env.appDirectory app.id = some dir)
    (hcfg : env.composeConfig dir = some compose)
    (himg : env.composeImage compose = some image)
    (himg0 : image ≠ "")
    (hbid : buildIdOfImage image = "") :
    startApp env appId =
      (.delegated, [.statusCheck (singleStatusName appId), .createBuild]) := by
  simp [startApp, hfind, hnr, hdir, hcfg, himg, himg0, hbid]

theorem startApp_eq_of_noBuild (env : Env) (appId : String) (app : App)
    (dir compose image : String)
    (hfind : env.apps.find? (fun a => a.id == appId) = some app)
    (hnr : env.containerStatus (singleStatusName appId) ≠ ContainerStatus.running)
    (hdir : env.appDirectory app.id = some dir)
    (hcfg : env.composeConfig dir = some compose)
    (himg : env.composeImage compose = some image)
    (himg0 : image ≠ "")
    (hbid : buildIdOfImage image ≠ "")
    (hbuild : env.builds.find? (fun b => b.id == buildIdOfImage image) = none) :
    startApp env appId =
      (.delegated, [.statusCheck (singleStatusName appId), .createBuild]) := by
  simp [startApp, hfind, hnr, hdir, hcfg, himg, himg0, hbid, hbuild]

theorem startApp_eq_of_unavailable (env : Env) (appId : String) (app : App)
    (build : Build) (dir compose image : String)
    (hfind : env.apps.find? (fun a => a.id == appId) = some app)
    (hnr : env.containerStatus (singleStatusName appId) ≠ ContainerStatus.running)
    (hdir : env.appDirectory app.id = some dir)
    (hcfg : env.composeConfig dir = some compose)
    (himg : env.composeImage compose = some image)
    (himg0 : image ≠ "")
    (hbid : buildIdOfImage image ≠ "")
    (hbuild : env.builds.find? (fun b => b.id == buildIdOfImage image) = some build)
    (hav : env.imageAvailable image = false) :
    startApp env appId =
      (.delegated, [.statusCheck (singleStatusName appId), .createBuild]) := by
  simp [startApp, hfind, hnr, hdir, hcfg, himg, himg0, hbid, hbuild, hav]

theorem startApp_eq_of_reuse (env : Env) (appId : String) (app : App)
    (build : Build) (dir compose image : String)
    (hfind : env.apps.find? (fun a => a.id == appId) = some app)
    (hnr : env.containerStatus (singleStatusName appId) ≠ ContainerStatus.running)
    (hdir : env.appDirectory app.id = some dir)
    (hcfg : env.composeConfig dir = some compose)
    (himg : env.composeImage compose = some image)
    (himg0 : image ≠ "")
    (hbid : buildIdOfImage image ≠ "")
    (hbuild : env.builds.find? (fun b => b.id == buildIdOfImage image) = some build)
    (hav : env.imageAvailable image = true) :
    startApp env appId =
      match env.startStackResult dir with
      | Except.ok _ =>
        (.success, [.statusCheck (singleStatusName appId),
          .saveConfig dir (createComposeConfiguration build (env.ports app.id)
            (env.volumes app.id) (env.vars app.id) (env.networks app.id)
            (env.labels app.id)),
          .startStack dir, .sendEvent app.id])
      | Except.error (StackError.withErr e) =>
        (.runtimeError e, [.statusCheck (singleStatusName appId),
          .saveConfig dir (createComposeConfiguration build (env.ports app.id)
            (env.volumes app.id) (env.vars app.id) (env.networks app.id)
            (env.labels app.id)),
          .startStack dir])
      | Except.error (StackError.other m) =>
        (.uncaught m, [.statusCheck (singleStatusName appId),
          .saveConfig dir (createComposeConfiguration build (env.ports app.id)
            (env.volumes app.id) (env.vars app.id) (env.networks app.id)
            (env.labels app.id)),
          .startStack dir]) := by
  simp [startApp, hfind, hnr, hdir, hcfg, himg, himg0, hbid, hbuild, hav]

/-! ### Equation lemmas for the stop and stream controllers -/

theorem stopApp_eq_of_conflict (env : Env) (appId : String) (app : App)
    (hfind : env.apps.find? (fun a => a.id == appId) = some app)
    (hnr : env.containerStatus (singleStatusName appId) ≠ ContainerStatus.running)
    (hnre : env.containerStatus (singleStatusName appId) ≠ ContainerStatus.restarting) :
    stopApp env appId = (.notRunning, [.statusCheck (singleStatusName appId)]) := by
  simp [stopApp, hfind, hnr, hnre]

theorem stopApp_eq_of_active (env : Env) (appId : String) (app : App)
    (hfind : env.apps.find? (fun a => a.id == appId) = some app)
    (hactive : env.containerStatus (singleStatusName appId) = ContainerStatus.running ∨
      env.containerStatus (singleStatusName appId) = ContainerStatus.restarting) :
    stopApp env appId =
      match env.stopStackResult (env.orCreateDirectory app.id) with
      | Except.ok _ =>
        (.success, [.statusCheck (singleStatusName appId),
          .stopStack (env.orCreateDirectory app.id), .sendEvent app.id])
      | Except.error e =>
        (.uncaughtStop e, [.statusCheck (singleStatusName appId),
          .stopStack (env.orCreateDirectory app.id)]) := by
  have hcond : ¬(env.containerStatus (singleStatusName appId) ≠ ContainerStatus.running ∧
      env.containerStatus (singleStatusName appId) ≠ ContainerStatus.restarting) :=
    fun hc => hactive.elim hc.1 hc.2
  simp [stopApp, hfind, hcond]

theorem listenAppLogs_eq_of_conflict (env : Env) (appId : String) (app : App)
    (hfind : env.apps.find? (fun a => a.id == appId) = some app)
    (hnr : env.containerStatus (singleStatusName appId) ≠ ContainerStatus.running)
    (hnre : env.containerStatus (singleStatusName appId) ≠ ContainerStatus.restarting) :
    listenAppLogs env appId = (.notRunning, [.statusCheck (singleStatusName appId)]) := by
  simp [listenAppLogs, hfind, hnr, hnre]

theorem listenAppLogs_eq_of_active (env : Env) (appId : String) (app : App)
    (hfind : env.apps.find? (fun a => a.id == appId) = some app)
    (hactive : env.containerStatus (singleStatusName appId) = ContainerStatus.running ∨
      env.containerStatus (singleStatusName appId) = ContainerStatus.restarting) :
    listenAppLogs env appId = (.streaming, [.statusCheck (singleStatusName appId),
      .streamLogs (singleStatusName appId)]) := by
  have hcond : ¬(env.containerStatus (singleStatusName appId) ≠ ContainerStatus.running ∧
      env.containerStatus (singleStatusName appId) ≠ ContainerStatus.restarting) :=
    fun hc => hactive.elim hc.1 hc.2
  simp [listenAppLogs, hfind, hcond]

theorem listenApp_eq_of_found (env : Env) (appId : String) (app : App)
    (hfind : env.apps.find? (fun a => a.id == appId) = some app) :
    listenApp env appId =
      (.subscribed (env.containerStatus (singleStatusName app.id)),
        [.subscribe appId, .statusCheck (singleStatusName app.id)]) := by
  simp [listenApp, hfind]

theorem startApp_statusCheck_mem (env : Env) (appId : String) (app : App)
    (hfind : env.apps.find? (fun a => a.id == appId) = some app) :
    Effect.statusCheck (singleStatusName appId) ∈ (startApp env appId).2 := by
  simp only [startApp, hfind]
  repeat' split
  all_goals simp

theorem stopApp_statusCheck_mem (env : Env) (appId : String) (app : App)
    (hfind : env.apps.find? (fun a => a.id == appId) = some app) :
    Effect.statusCheck (singleStatusName appId) ∈ (stopApp env appId).2 := by
  simp only [stopApp, hfind]
  repeat' split
  all_goals simp

theorem listenAppLogs_statusCheck_mem (env : Env) (appId : String) (app : App)
    (hfind : env.apps.find? (fun a => a.id == appId) = some app) :
    Effect.statusCheck (singleStatusName appId) ∈ (listenAppLogs env appId).2 := by
  simp only [listenAppLogs, hfind]
  repeat' split
  all_goals simp

/-! ### Claim C4: conflict rejections with no runtime call -/

/-- C4: Start on an existing app whose container status is running is
rejected with the conflict result and issues no collaborator call beyond
the status check; Stop on an existing app whose status is anything other
than running or restarting is rejected with the conflict result and
issues no stop call. -/
theorem c4_conflict_rejections (envS envT : Env) (appIdS appIdT : String)
    (appS appT : App)
    (hfindS : envS.apps.find? (fun a => a.id == appIdS) = some appS)
    (hrun : envS.containerStatus (singleStatusName appIdS) = ContainerStatus.running)
    (hfindT : envT.apps.find? (fun a => a.id == appIdT) = some appT)
    (hnr : envT.containerStatus (singleStatusName appIdT) ≠ ContainerStatus.running)
    (hnre : envT.containerStatus (singleStatusName appIdT) ≠ ContainerStatus.restarting) :
    startApp envS appIdS = (.alreadyRunning, [.statusCheck (singleStatusName appIdS)]) ∧
    stopApp envT appIdT = (.notRunning, [.statusCheck (singleStatusName appIdT)]) :=
  ⟨startApp_eq_of_running envS appIdS appS hfindS hrun,
   stopApp_eq_of_conflict envT appIdT appT hfindT hnr hnre⟩

/-- Witness for C4: a running app rejects Start, an exited app rejects
Stop, each with only the status check issued. -/
theorem c4_witness :
    startApp runningEnv "a1" =
      (.alreadyRunning, [.statusCheck (singleStatusName "a1")]) ∧
    stopApp baseEnv "a1" = (.notRunning, [.statusCheck (singleStatusName "a1")]) :=
  c4_conflict_rejections runningEnv baseEnv "a1" "a1" ⟨"a1", "web"⟩ ⟨"a1", "web"⟩
    rfl rfl rfl (by decide) (by decide)

/-! ### Claim C5: stop on a restarting app -/

/-- C5: Stop on an existing app whose container status is restarting and
whose runtime stop call succeeds returns the success result, issues
exactly one stopComposeStack call on the get-or-create directory of the
app, and publishes exactly one lifecycle event for that app. -/
theorem c5_stop_restarting (env : Env) (appId : String) (app : App)
    (hfind : env.apps.find? (fun a => a.id == appId) = some app)
    (hres : env.containerStatus (singleStatusName appId) = ContainerStatus.restarting)
    (hok : env.stopStackResult (env.orCreateDirectory app.id) = Except.ok ()) :
    stopApp env appId = (.success, [.statusCheck (singleStatusName appId),
      .stopStack (env.orCreateDirectory app.id), .sendEvent app.id]) ∧
    (stopApp env appId).2.count (.stopStack (env.orCreateDirectory app.id)) = 1 ∧
    (stopApp env appId).2.count (.sendEvent app.id) = 1 := by
  have heq := stopApp_eq_of_active env appId app hfind (Or.inr hres)
  simp only [hok] at heq
  refine ⟨heq, ?_, ?_⟩ <;> rw [heq] <;> simp [List.count_cons]

/-- Witness for C5 on the restarting world. -/
theorem c5_witness :
    stopApp restartingEnv "a1" = (.success, [.statusCheck (singleStatusName "a1"),
      .stopStack (restartingEnv.orCreateDirectory "a1"), .sendEvent "a1"]) ∧
    (stopApp restartingEnv "a1").2.count
      (.stopStack (restartingEnv.orCreateDirectory "a1")) = 1 ∧
    (stopApp restartingEnv "a1").2.count (.sendEvent "a1") = 1 :=
  c5_stop_restarting restartingEnv "a1" ⟨"a1", "web"⟩ rfl rfl rfl

/-! ### Claim C8: startStack error handling -/

/-- C8: once the reuse chain has passed, an error from startComposeStack
that carries an err field yields the 500-equivalent runtime-error result
with exactly one startStack call (no retry), and any other error leaves
Start through the uncaught path, also after exactly one startStack
call. -/
theorem c8_start_error_propagation (env : Env) (appId : String) (app : App)
    (build : Build) (dir compose image : String)
    (hfind : env.apps.find? (fun a => a.id == appId) = some app)
    (hnr : env.containerStatus (singleStatusName appId) ≠ ContainerStatus.running)
    (hdir : env.appDirectory app.id = some dir)
    (hcfg : env.composeConfig dir = some compose)
    (himg : env.composeImage compose = some image)
    (himg0 : image ≠ "")
    (hbid : buildIdOfImage image ≠ "")
    (hbuild : env.builds.find? (fun b => b.id == buildIdOfImage image) = some build)
    (hav : env.imageAvailable image = true) :
    (∀ e, env.startStackResult dir = Except.error (StackError.withErr e) →
      (startApp env appId).1 = .runtimeError e ∧
      (startApp env appId).2.count (.startStack dir) = 1) ∧
    (∀ m, env.startStackResult dir = Except.error (StackError.other m) →
      (startApp env appId).1 = .uncaught m ∧
      (startApp env appId).2.count (.startStack dir) = 1) := by
  have heq := startApp_eq_of_reuse env appId app build dir compose image
    hfind hnr hdir hcfg himg himg0 hbid hbuild hav
  constructor
  · intro e he
    rw [he] at heq
    exact ⟨by rw [heq], by rw [heq]; simp [List.count_cons]⟩
  · intro m hm
    rw [hm] at heq
    exact ⟨by rw [heq], by rw [heq]; simp [List.count_cons]⟩

/-- Witness for C8 on the world whose stack start raises an err-carrying
error. -/
theorem c8_witness :
    (startApp errEnv "a1").1 = .runtimeError "boom" ∧
    (startApp errEnv "a1").2.count (.startStack "/apps/a1") = 1 :=
  (c8_start_error_propagation errEnv "a1" ⟨"a1", "web"⟩ ⟨"b1", "a1"⟩
    "/apps/a1" "services" "dockerizalo-b1" rfl (by decide) rfl rfl rfl
    (by decide) (by decide) (by decide) rfl).1 "boom" rfl

/-! ### Claim C9: log-stream precondition -/

/-- C9: the log-stream operation on an existing app whose container
status is neither running nor restarting is rejected with the conflict
result before any subscription or streaming call: the status check is
the only collaborator call issued and no streamLogs call occurs. -/
theorem c9_logs_conflict_precondition (env : Env) (appId : String) (app : App)
    (hfind : env.apps.find? (fun a => a.id == appId) = some app)
    (hnr : env.containerStatus (singleStatusName appId) ≠ ContainerStatus.running)
    (hnre : env.containerStatus (singleStatusName appId) ≠ ContainerStatus.restarting) :
    listenAppLogs env appId = (.notRunning, [.statusCheck (singleStatusName appId)]) ∧
    ∀ n, Effect.streamLogs n ∉ (listenAppLogs env appId).2 := by
  have heq := listenAppLogs_eq_of_conflict env appId app hfind hnr hnre
  exact ⟨heq, by intro n; rw [heq]; simp⟩

/-- Witness for C9 on the exited world. -/
theorem c9_witness :
    listenAppLogs baseEnv "a1" =
      (.notRunning, [.statusCheck (singleStatusName "a1")]) ∧
    Effect.streamLogs (singleStatusName "a1") ∉ (listenAppLogs baseEnv "a1").2 := by
  have h := c9_logs_conflict_precondition baseEnv "a1" ⟨"a1", "web"⟩ rfl
    (by decide) (by decide)
  exact ⟨h.1, h.2 (singleStatusName "a1")⟩

/-! ### Claim C1: no start with an unavailable image -/

/-- C1: whenever any of the sequential reuse checks fails (directory
absent, configuration absent, image reference absent or empty, derived
build id empty, build record missing, image unavailable) Start returns
the delegated-to-build-creation result with `createBuild` as its only
collaborator call after the status check, hence no startStack call; and
conversely every issued startStack call certifies that the directory,
configuration, image reference and imageAvailable checks all passed. -/
theorem c1_no_start_without_available_image (env : Env) (appId : String) (app : App)
    (hfind : env.apps.find? (fun a => a.id == appId) = some app)
    (hnr : env.containerStatus (singleStatusName appId) ≠ ContainerStatus.running) :
    ((env.appDirectory app.id = none →
        startApp env appId =
          (.delegated, [.statusCheck (singleStatusName appId), .createBuild])) ∧
      (∀ dir, env.appDirectory app.id = some dir → env.composeConfig dir = none →
        startApp env appId =
          (.delegated, [.statusCheck (singleStatusName appId), .createBuild])) ∧
      (∀ dir compose, env.appDirectory app.id = some dir →
        env.composeConfig dir = some compose → env.composeImage compose = none →
        startApp env appId =
          (.delegated, [.statusCheck (singleStatusName appId), .createBuild])) ∧
      (∀ dir compose, env.appDirectory app.id = some dir →
        env.composeConfig dir = some compose → env.composeImage compose = some "" →
        startApp env appId =
          (.delegated, [.statusCheck (singleStatusName appId), .createBuild])) ∧
      (∀ dir compose image, env.appDirectory app.id = some dir →
        env.composeConfig dir = some compose → env.composeImage compose = some image →
        image ≠ "" → buildIdOfImage image = "" →
        startApp env appId =
          (.delegated, [.statusCheck (singleStatusName appId), .createBuild])) ∧
      (∀ dir compose image, env.appDirectory app.id = some dir →
        env.composeConfig dir = some compose → env.composeImage compose = some image →
        image ≠ "" → buildIdOfImage image ≠ "" →
        env.builds.find? (fun b => b.id == buildIdOfImage image) = none →
        startApp env appId =
          (.delegated, [.statusCheck (singleStatusName appId), .createBuild])) ∧
      (∀ dir compose image build, env.appDirectory app.id = some dir →
        env.composeConfig dir = some compose → env.composeImage compose = some image →
        image ≠ "" → buildIdOfImage image ≠ "" →
        env.builds.find? (fun b => b.id == buildIdOfImage image) = some build →
        env.imageAvailable image = false →
        startApp env appId =
          (.delegated, [.statusCheck (singleStatusName appId), .createBuild]))) ∧
    (∀ d, Effect.startStack d ∈ (startApp env appId).2 →
      env.appDirectory app.id = some d ∧
      ∃ compose image, env.composeConfig d = some compose ∧
        env.composeImage compose = some image ∧ env.imageAvailable image = true) := by
  constructor
  · refine ⟨?_, ?_, ?_, ?_, ?_, ?_, ?_⟩
    · exact fun hdir => startApp_eq_of_noDir env appId app hfind hnr hdir
    · exact fun dir hdir hcfg =>
        startApp_eq_of_noConfig env appId app dir hfind hnr hdir hcfg
    · exact fun dir compose hdir hcfg himg =>
        startApp_eq_of_noImage env appId app dir compose hfind hnr hdir hcfg himg
    · exact fun dir compose hdir hcfg himg =>
        startApp_eq_of_emptyImage env appId app dir compose hfind hnr hdir hcfg himg
    · exact fun dir compose image hdir hcfg himg himg0 hbid =>
        startApp_eq_of_emptyBuildId env appId app dir compose image
          hfind hnr hdir hcfg himg himg0 hbid
    · exact fun dir compose image hdir hcfg himg himg0 hbid hbuild =>
        startApp_eq_of_noBuild env appId app dir compose image
          hfind hnr hdir hcfg himg himg0 hbid hbuild
    · exact fun dir compose image build hdir hcfg himg himg0 hbid hbuild hav =>
        startApp_eq_of_unavailable env appId app build dir compose image
          hfind hnr hdir hcfg himg himg0 hbid hbuild hav
  · intro d hmem
    rcases hdir : env.appDirectory app.id with _ | dir
    · rw [startApp_eq_of_noDir env appId app hfind hnr hdir] at hmem
      simp at hmem
    · rcases hcfg : env.composeConfig dir with _ | compose
      · rw [startApp_eq_of_noConfig env appId app dir hfind hnr hdir hcfg] at hmem
        simp at hmem
      · rcases himg : env.composeImage compose with _ | image
        · rw [startApp_eq_of_noImage env appId app dir compose
            hfind hnr hdir hcfg himg] at hmem
          simp at hmem
        · by_cases himg0 : image = ""
          · subst himg0
            rw [startApp_eq_of_emptyImage env appId app dir compose
              hfind hnr hdir hcfg himg] at hmem
            simp at hmem
          · by_cases hbid : buildIdOfImage image = ""
            · rw [startApp_eq_of_emptyBuildId env appId app dir compose image
                hfind hnr hdir hcfg himg himg0 hbid] at hmem
              simp at hmem
            · rcases hbuild : env.builds.find? (fun b => b.id == buildIdOfImage image)
                with _ | build
              · rw [startApp_eq_of_noBuild env appId app dir compose image
                  hfind hnr hdir hcfg himg himg0 hbid hbuild] at hmem
                simp at hmem
              · cases hav : env.imageAvailable image with
                | false =>
                  rw [startApp_eq_of_unavailable env appId app build dir compose image
                    hfind hnr hdir hcfg himg himg0 hbid hbuild hav] at hmem
                  simp at hmem
                | true =>
                  have heq := startApp_eq_of_reuse env appId app build dir compose image
                    hfind hnr hdir hcfg himg himg0 hbid hbuild hav
                  have hd : d = dir := by
                    rcases hres : env.startStackResult dir with e | u
                    · rcases e with e | m <;> rw [hres] at heq <;> rw [heq] at hmem <;>
                        simpa using hmem
                    · rw [hres] at heq
                      rw [heq] at hmem
                      simpa using hmem
                  subst hd
                  exact ⟨rfl, compose, image, hcfg, himg, hav⟩

/-- Witness for C1 on the world with no app directory: Start delegates
and issues no startStack call. -/
theorem c1_witness :
    startApp noDirEnv "a1" =
      (.delegated, [.statusCheck (singleStatusName "a1"), .createBuild]) :=
  (c1_no_start_without_available_image noDirEnv "a1" ⟨"a1", "web"⟩ rfl
    (by decide)).1.1 rfl

/-! ### Claim C10: the build id derivation -/

/-- C10: the build id is derived from the image tag by deleting only the
first occurrence of the substring dockerizalo-: a tag without that
substring is used verbatim for the store lookup (no prefix validation),
a tag with two occurrences keeps the second, and at the build-id step
Start routes to build-creation exactly when the derived id is empty
(with a non-empty id the decision moves to the store lookup under that
id and to the image-availability check). -/
theorem c10_build_id_derivation (env : Env) (appId : String) (app : App)
    (dir compose image : String)
    (hfind : env.apps.find? (fun a => a.id == appId) = some app)
    (hnr : env.containerStatus (singleStatusName appId) ≠ ContainerStatus.running)
    (hdir : env.appDirectory app.id = some dir)
    (hcfg : env.composeConfig dir = some compose)
    (himg : env.composeImage compose = some image)
    (himg0 : image ≠ "") :
    (hasDockerizaloMarker image = false → buildIdOfImage image = image) ∧
    (∀ s, buildIdOfImage ("dockerizalo-" ++ s) = s) ∧
    (buildIdOfImage "dockerizalo-a-dockerizalo-b" = "a-dockerizalo-b") ∧
    (buildIdOfImage image = "" →
      startApp env appId =
        (.delegated, [.statusCheck (singleStatusName appId), .createBuild])) ∧
    (buildIdOfImage image ≠ "" →
      env.builds.find? (fun b => b.id == buildIdOfImage image) = none →
      startApp env appId =
        (.delegated, [.statusCheck (singleStatusName appId), .createBuild])) ∧
    (∀ build, buildIdOfImage image ≠ "" →
      env.builds.find? (fun b => b.id == buildIdOfImage image) = some build →
      env.imageAvailable image = true →
      (startApp env appId).1 ≠ .delegated) := by
  refine ⟨buildIdOfImage_of_no_marker image, buildIdOfImage_marker_append,
    by decide, ?_, ?_, ?_⟩
  · exact fun hbid => startApp_eq_of_emptyBuildId env appId app dir compose image
      hfind hnr hdir hcfg himg himg0 hbid
  · exact fun hbid hbuild => startApp_eq_of_noBuild env appId app dir compose image
      hfind hnr hdir hcfg himg himg0 hbid hbuild
  · intro build hbid hbuild hav
    have heq := startApp_eq_of_reuse env appId app build dir compose image
      hfind hnr hdir hcfg himg himg0 hbid hbuild hav
    rcases hres : env.startStackResult dir with e | u
    · rcases e with e | m <;> rw [hres] at heq <;> rw [heq] <;> simp
    · rw [hres] at heq
      rw [heq]
      simp

/-- Witness for C10: a doubled marker keeps only its first occurrence
deleted, and on the reusable world Start does not delegate. -/
theorem c10_witness :
    buildIdOfImage "dockerizalo-a-dockerizalo-b" = "a-dockerizalo-b" ∧
    (startApp baseEnv "a1").1 ≠ .delegated := by
  have h := c10_build_id_derivation baseEnv "a1" ⟨"a1", "web"⟩
    "/apps/a1" "services" "dockerizalo-b1" rfl (by decide) rfl rfl rfl (by decide)
  exact ⟨h.2.2.1, h.2.2.2.2.2 ⟨"b1", "a1"⟩ (by decide) (by decide) rfl⟩

/-! ### Claim C7: the container name used by status queries -/

/-- C7 counterexample: the claim says single and bulk status queries use
the same derived container name; for the app id a1 the single-query name
and the bulk-snapshot key differ (the bulk key carries a leading slash),
so the two paths do not consult the runtime under the same name
string. -/
theorem c7_counterexample : bulkStatusKey "a1" ≠ singleStatusName "a1" := by
  decide

/-- C7 amended: every single-app status query (start, stop,
status-stream, log-stream) consults the runtime under
dockerizalo- plus the app id, while the bulk listing looks up the
snapshot under the same derivation prefixed with the leading
slash; and a bulk-listed app whose key is absent from the snapshot is
displayed as exited. -/
theorem c7_amended_status_names (env : Env) (appId : String) (app : App)
    (hfind : env.apps.find? (fun a => a.id == appId) = some app) :
    (∀ id, singleStatusName id = "dockerizalo-" ++ id ∧
      bulkStatusKey id = "/" ++ singleStatusName id) ∧
    Effect.statusCheck (singleStatusName appId) ∈ (startApp env appId).2 ∧
    Effect.statusCheck (singleStatusName appId) ∈ (stopApp env appId).2 ∧
    Effect.statusCheck (singleStatusName app.id) ∈ (listenApp env appId).2 ∧
    Effect.statusCheck (singleStatusName appId) ∈ (listenAppLogs env appId).2 ∧
    (∀ a, a ∈ env.apps →
      env.allContainers.find? (fun p => p.1 == bulkStatusKey a.id) = none →
      (a, ContainerStatus.exited) ∈ listApps env) := by
  refine ⟨?_, startApp_statusCheck_mem env appId app hfind,
    stopApp_statusCheck_mem env appId app hfind, ?_,
    listenAppLogs_statusCheck_mem env appId app hfind, ?_⟩
  · intro id
    refine ⟨rfl, ?_⟩
    show "/dockerizalo-" ++ id = "/" ++ ("dockerizalo-" ++ id)
    rw [← String.append_assoc]
    rfl
  · rw [listenApp_eq_of_found env appId app hfind]
    simp
  · intro a ha hnone
    unfold listApps
    refine List.mem_map.mpr ⟨a, ha, ?_⟩
    simp [hnone]

/-- Witness for C7 amended on the base world: Start checks the status
under the single-query name, and the bulk listing shows the app as
exited because its key is absent from the empty snapshot. -/
theorem c7_witness :
    Effect.statusCheck (singleStatusName "a1") ∈ (startApp baseEnv "a1").2 ∧
    (⟨"a1", "web"⟩, ContainerStatus.exited) ∈ listApps baseEnv := by
  have h := c7_amended_status_names baseEnv "a1" ⟨"a1", "web"⟩ rfl
  exact ⟨h.2.1, h.2.2.2.2.2 ⟨"a1", "web"⟩ (by decide) rfl⟩

/-! ### Claim C6: the log retry loop -/

theorem superviseLogs_delivers (attempt : Nat → Except String Unit)
    (aborted : Nat → Bool) (N : Nat)
    (hfail : ∀ i, i < N → ∃ e, attempt i = Except.error e)
    (hsucc : attempt N = Except.ok ())
    (hnab : ∀ i, i < N → aborted i = false) :
    ∀ d s, s + d = N → superviseLogs attempt aborted (d + 1) s = .delivered N := by
  intro d
  induction d with
  | zero =>
    intro s hs
    simp only [Nat.add_zero] at hs
    subst hs
    simp [superviseLogs, hsucc]
  | succ d ih =>
    intro s hs
    have hlt : s < N := by omega
    obtain ⟨e, he⟩ := hfail s hlt
    have hab := hnab s hlt
    have hstep : superviseLogs attempt aborted (d + 1 + 1) s =
        superviseLogs attempt aborted (d + 1) (s + 1) := by
      simp [superviseLogs, he, hab]
    rw [hstep]
    exact ih (s + 1) (by omega)

/-- C6: the supervisor modelled after the promise-retry loop in
listenAppLogs delivers the stream after exactly N retries when the
adapter fails N times and then succeeds with no cancellation; an error
raised after the cancellation signal has fired is swallowed with no
further attempt; and every backoff delay is capped by the configured
maxTimeout of 1000. -/
theorem c6_log_retry_loop (attempt : Nat → Except String Unit) (aborted : Nat → Bool)
    (N : Nat)
    (hfail : ∀ i, i < N → ∃ e, attempt i = Except.error e)
    (hsucc : attempt N = Except.ok ())
    (hnab : ∀ i, i < N → aborted i = false) :
    superviseLogs attempt aborted (N + 1) 0 = .delivered N ∧
    (∀ i e fuel, attempt i = Except.error e → aborted i = true →
      superviseLogs attempt aborted (fuel + 1) i = .swallowed i) ∧
    (∀ k, logRetryTimeout k ≤ 1000) := by
  refine ⟨superviseLogs_delivers attempt aborted N hfail hsucc hnab N 0 (by omega),
    ?_, fun k => Nat.min_le_right _ _⟩
  intro i e fuel he hab
  simp [superviseLogs, he, hab]

/-- Witness for C6: an adapter that fails once then succeeds is delivered
after exactly one retry, and an error after the signal fires is
swallowed. -/
theorem c6_witness :
    superviseLogs attemptMix abortedLate 2 0 = .delivered 1 ∧
    superviseLogs attemptMix abortedLate 1 2 = .swallowed 2 := by
  have h := c6_log_retry_loop attemptMix abortedLate 1
    (fun i hi => ⟨"unavailable", by
      have hz : i = 0 := by omega
      subst hz
      rfl⟩)
    rfl
    (fun i hi => by
      have hz : i = 0 := by omega
      subst hz
      rfl)
  exact ⟨h.1, h.2.1 2 "unavailable" 0 rfl rfl⟩

end Dockerizalo
